import Mathlib

/-!
# Verification of the rclone-assets content-addressable asset store

Shallow embedding of the core of the `tgdrive/rclone-assets` service and
proofs about it.  The repository contains two generations of the service:

* the CAS generation (the gorm/rclone `main.go` with a unique index on the
  content hash, `getStoragePath`, VFS-cached downloads, hash-keyed storage),
  embedded below as `handleRawUpload`, `downloadAsset`, `deleteAssetCAS`;
* the legacy generation (the counter-based `main.go` with
  `getSmartStoragePath`, per-directory fill counters and a locally mounted
  storage path), embedded below as `getSmartStoragePath`, `decCounter`,
  `deleteAssetLegacy`.

Bytes are modelled as `List Nat` (each element a byte value), machine
integers as `Nat`/`Int` with explicit reduction mod `2^32` where the Go code
relies on 32-bit wraparound (inside MD5), the SQL catalog as a list of
records together with the uniqueness constraints its schema declares, and
the rclone backend as an association list from object keys to byte lists.
-/

namespace RcloneAssets

/-! ## MD5 (crypto/md5)

The service hashes every upload with Go's `crypto/md5` and hex-encodes the
sum (`hex.EncodeToString`).  This is a direct embedding of the MD5
algorithm; all word arithmetic is reduced mod `2^32`. -/

/-- 32-bit truncation. -/
def w32 (n : Nat) : Nat := n % 4294967296

/-- Left-rotate a 32-bit word by `c` bits. -/
def rotl32 (x c : Nat) : Nat :=
  w32 ((x <<< c) ||| (x >>> (32 - c)))

/-- MD5 per-round shift amounts. -/
def md5S : List Nat :=
  [7, 12, 17, 22, 7, 12, 17, 22, 7, 12, 17, 22, 7, 12, 17, 22,
   5, 9, 14, 20, 5, 9, 14, 20, 5, 9, 14, 20, 5, 9, 14, 20,
   4, 11, 16, 23, 4, 11, 16, 23, 4, 11, 16, 23, 4, 11, 16, 23,
   6, 10, 15, 21, 6, 10, 15, 21, 6, 10, 15, 21, 6, 10, 15, 21]

/-- MD5 sine-derived round constants. -/
def md5K : List Nat :=
  [0xd76aa478, 0xe8c7b756, 0x242070db, 0xc1bdceee,
   0xf57c0faf, 0x4787c62a, 0xa8304613, 0xfd469501,
   0x698098d8, 0x8b44f7af, 0xffff5bb1, 0x895cd7be,
   0x6b901122, 0xfd987193, 0xa679438e, 0x49b40821,
   0xf61e2562, 0xc040b340, 0x265e5a51, 0xe9b6c7aa,
   0xd62f105d, 0x02441453, 0xd8a1e681, 0xe7d3fbc8,
   0x21e1cde6, 0xc33707d6, 0xf4d50d87, 0x455a14ed,
   0xa9e3e905, 0xfcefa3f8, 0x676f02d9, 0x8d2a4c8a,
   0xfffa3942, 0x8771f681, 0x6d9d6122, 0xfde5380c,
   0xa4beea44, 0x4bdecfa9, 0xf6bb4b60, 0xbebfbc70,
   0x289b7ec6, 0xeaa127fa, 0xd4ef3085, 0x04881d05,
   0xd9d4d039, 0xe6db99e5, 0x1fa27cf8, 0xc4ac5665,
   0xf4292244, 0x432aff97, 0xab9423a7, 0xfc93a039,
   0x655b59c3, 0x8f0ccc92, 0xffeff47d, 0x85845dd1,
   0x6fa87e4f, 0xfe2ce6e0, 0xa3014314, 0x4e0811a1,
   0xf7537e82, 0xbd3af235, 0x2ad7d2bb, 0xeb86d391]

/-- Bitwise NOT within 32 bits. -/
def not32 (x : Nat) : Nat := x ^^^ 0xffffffff

/-- One round of the MD5 compression function: state is `(a, b, c, d)`,
`m` the 16 message words of the current chunk, `i` the round index. -/
def md5Round (m : List Nat) (st : Nat × Nat × Nat × Nat) (i : Nat) :
    Nat × Nat × Nat × Nat :=
  let (a, b, c, d) := st
  let (f, g) :=
    if i < 16 then ((b &&& c) ||| (not32 b &&& d), i)
    else if i < 32 then ((d &&& b) ||| (not32 d &&& c), (5 * i + 1) % 16)
    else if i < 48 then (b ^^^ c ^^^ d, (3 * i + 5) % 16)
    else (c ^^^ (b ||| not32 d), (7 * i) % 16)
  let f' := w32 (f + a + md5K.getD i 0 + m.getD g 0)
  (d, w32 (b + rotl32 f' (md5S.getD i 0)), b, c)

/-- Split a little-endian byte list into 32-bit words (16 words per 64-byte
chunk). -/
def bytesToWords : List Nat → List Nat
  | b0 :: b1 :: b2 :: b3 :: rest =>
      (b0 + b1 * 256 + b2 * 65536 + b3 * 16777216) :: bytesToWords rest
  | _ => []

/-- Process one 64-byte chunk into the running state. -/
def md5Chunk (st : Nat × Nat × Nat × Nat) (chunk : List Nat) :
    Nat × Nat × Nat × Nat :=
  let m := bytesToWords chunk
  let (a, b, c, d) := st
  let (a', b', c', d') := (List.range 64).foldl (md5Round m) (a, b, c, d)
  (w32 (a + a'), w32 (b + b'), w32 (c + c'), w32 (d + d'))

/-- Split a byte list into chunks of 64 (fuel-based structural recursion so
that the function reduces inside the kernel; `fuel ≥ l.length` suffices). -/
def chunks64Go : Nat → List Nat → List (List Nat)
  | _, [] => []
  | 0, _ :: _ => []
  | fuel + 1, x :: xs => ((x :: xs).take 64) :: chunks64Go fuel ((x :: xs).drop 64)

/-- Split a byte list into chunks of 64. -/
def chunks64 (l : List Nat) : List (List Nat) := chunks64Go l.length l

/-- Little-endian encoding of `n` into `k` bytes. -/
def leBytes (k n : Nat) : List Nat :=
  match k with
  | 0 => []
  | k + 1 => (n % 256) :: leBytes k (n / 256)

/-- MD5 padding: append `0x80`, zero-pad to 56 mod 64, then the 64-bit
little-endian bit length of the original message.  `padLen` counts the
`0x80` byte plus the zeros; since `len % 64 ≤ 63` the subtraction never
truncates. -/
def md5Pad (msg : List Nat) : List Nat :=
  let len := msg.length
  let padLen := (119 - len % 64) % 64 + 1
  msg ++ 0x80 :: List.replicate (padLen - 1) 0 ++ leBytes 8 (len * 8)

/-- MD5 digest of a byte list, as 16 bytes (`md5.Sum`). -/
def md5 (msg : List Nat) : List Nat :=
  let st :=
    (chunks64 (md5Pad msg)).foldl md5Chunk
      (0x67452301, 0xefcdab89, 0x98badcfe, 0x10325476)
  leBytes 4 st.1 ++ leBytes 4 st.2.1 ++ leBytes 4 st.2.2.1 ++ leBytes 4 st.2.2.2

/-- Lowercase hex digit for a nibble (the alphabet of `hex.EncodeToString`). -/
def hexDigit (n : Nat) : Char := Nat.digitChar n

/-- Lowercase hex encoding of a byte list (`hex.EncodeToString`). -/
def hexEncode (bs : List Nat) : String :=
  String.mk (bs.flatMap fun b => [hexDigit (b / 16), hexDigit (b % 16)])

/-- Hex MD5 digest of a byte list: `hex.EncodeToString(md5.Sum(body))`. -/
def md5hex (msg : List Nat) : String := hexEncode (md5 msg)

/-! ## Configuration constants (both generations) -/

/-- `MAX_UPLOAD_SIZE = 50 << 20`. -/
def MAX_UPLOAD_SIZE : Nat := 52428800

/-- `FILES_PER_DIR = 5000` (legacy counter-based placement), as the `int64`
values it is compared against. -/
def FILES_PER_DIR : Int := 5000

/-- `DIR_SHARDING_DEPTH = 1` (legacy counter-based placement). -/
def DIR_SHARDING_DEPTH : Nat := 1

/-! ## Data model (CAS generation)

The `Asset` gorm model of the CAS generation: primary key `id`, `not null`
columns, a *unique* index on `hash` and a plain index on `created_at`.
Timestamps are modelled as `Nat` (UTC instants). -/

/-- An asset catalog record (CAS generation `Asset` struct). -/
structure Asset where
  id : String
  fileName : String
  size : Nat
  mimeType : String
  hash : String
  createdAt : Nat
  updatedAt : Nat
deriving DecidableEq

/-- The rclone backend, modelled as an association list from object keys to
byte contents. -/
abbrev Backend := List (String × List Nat)

/-- The local VFS cache mirror, also key-to-bytes. -/
abbrev Cache := List (String × List Nat)

/-- Object lookup in a key-to-bytes association list. -/
def getObject (b : Backend) (k : String) : Option (List Nat) :=
  (b.find? fun p => p.1 == k).map (·.2)

/-- Object removal (`obj.Remove`). -/
def removeObject (b : Backend) (k : String) : Backend :=
  b.filter fun p => p.1 != k

/-- Object write (`fs.Put`) — an upload to key `k` replaces any object at
that key. -/
def putObject (b : Backend) (k : String) (v : List Nat) : Backend :=
  (k, v) :: removeObject b k

/-- The full state of the CAS generation: SQL catalog, remote backend, and
local VFS cache mirror. -/
structure Store where
  catalog : List Asset
  backend : Backend
  cache : Cache
deriving DecidableEq

/-! ## Catalog operations (CAS generation)

The catalog is Postgres behind gorm; we model the five operations the
service invokes, including the uniqueness constraints declared by the
schema (`primary_key` on `id`, `uniqueIndex` on `hash`).  External database
failures (connection loss etc.) are not modelled: every claim is about the
service's logic, not the database driver's availability. -/

/-- `db.Where("hash = ?", h).First(&existing)` — first record with the given
content hash. -/
def lookupByHash (cat : List Asset) (h : String) : Option Asset :=
  cat.find? fun r => r.hash == h

/-- `db.First(&asset, "id = ?", id)` — point lookup by primary key. -/
def lookupByID (cat : List Asset) (id : String) : Option Asset :=
  cat.find? fun r => r.id == id

/-- Result of a catalog insert: `ok` with the new table contents, or a
constraint violation. -/
inductive InsertResult where
  | ok (cat : List Asset)
  | conflict
deriving DecidableEq

/-- `db.Create(asset)` — the insert is rejected iff it would violate the
primary key on `id` or the unique index on `hash`. -/
def insertAsset (cat : List Asset) (a : Asset) : InsertResult :=
  if cat.any (fun r => r.id == a.id || r.hash == a.hash) then .conflict
  else .ok (cat ++ [a])

/-- `db.Delete(&Asset{}, "id = ?", id)` — removes the row(s) with that id. -/
def deleteByID (cat : List Asset) (id : String) : List Asset :=
  cat.filter fun r => r.id != id

/-! ## Placement, identifiers, media type (CAS generation) -/

/-- `getStoragePath` (CAS generation): `filepath.Join(hash[0:2], hash)` for
hashes of length at least 2, the bare hash otherwise.  `filepath.Join` of
two nonempty separator-free components is modelled as `a ++ "/" ++ b`
(the deployment target is Linux; the code itself normalizes any `\` to `/`). -/
def getStoragePath (hash : String) : String :=
  if hash.length < 2 then hash else hash.take 2 ++ "/" ++ hash

/-- The `dec` table of rs/xid on the base32hex alphabet
`"0123456789abcdefghijklmnopqrstuv"`; characters outside it map to the
invalid marker `0xFF`. -/
def xidDec (c : Char) : Nat :=
  if (decide ('0' ≤ c) && decide (c ≤ '9')) = true then c.toNat - 48
  else if (decide ('a' ≤ c) && decide (c ≤ 'v')) = true then c.toNat - 87
  else 255

/-- The `encoding` alphabet of rs/xid: digit characters for `0–9`,
lowercase letters from `'a'` for `10–31`. -/
def xidEncChar (n : Nat) : Char :=
  if n < 10 then Char.ofNat (48 + n) else Char.ofNat (87 + n)

/-- The trailing-bits check of rs/xid `decode` (since v1.4.0, pinned here
at v1.6.0): the last decoded byte
`id[11] = dec[src[17]]<<6 | dec[src[18]]<<1 | dec[src[19]]>>4` (byte
arithmetic, mod 256) must re-encode to the final character:
`encoding[(id[11]<<4)&0x1F] == src[19]`.  Only `'0'` and `'g'` can pass. -/
def xidTrailingOK (s : String) : Bool :=
  let d17 := xidDec (s.toList.getD 17 '0')
  let d18 := xidDec (s.toList.getD 18 '0')
  let d19 := xidDec (s.toList.getD 19 '0')
  let id11 := ((d17 <<< 6) ||| (d18 <<< 1) ||| (d19 >>> 4)) % 256
  xidEncChar ((id11 <<< 4) % 256 &&& 31) == s.toList.getD 19 '0'

/-- Validity of an `xid` identifier (`xid.FromString` succeeds): exactly 20
characters drawn from the base32hex alphabet `0-9a-v`, and the
trailing-bits check of `decode` passes. -/
def xidValid (s : String) : Bool :=
  s.length == 20 &&
    (s.toList.all fun c => (decide ('0' ≤ c) && decide (c ≤ '9')) ||
      (decide ('a' ≤ c) && decide (c ≤ 'v'))) &&
    xidTrailingOK s

/-- `strings.Split(assetName, ".")[0]` — the part of the name before the
first dot (the whole name when no dot occurs). -/
def splitDot (s : String) : String :=
  String.mk (s.toList.takeWhile fun c => c != '.')

/-- Modelled from the spec: the media-type sniff of the external
`mimetype` library, a pure function of the first 512 bytes of the stream
returning `(mime string, extension)`.  None of the claims depend on its
concrete values, only on it being a deterministic function of that
byte sequence. -/
def mimeDetect (_head512 : List Nat) : String × String :=
  ("application/octet-stream", ".bin")

/-! ## Ingest (CAS generation `handleRawUpload`)

The handler wraps the body in `http.MaxBytesReader(MAX_UPLOAD_SIZE)`, spools
it to a temp file while hashing, then (1) checks the catalog for the hash,
returning the existing record with `deduped = true` and HTTP 200 on a hit;
(2) otherwise writes the spool to the backend at `getStoragePath(hash)` and
(3) inserts the new record, responding 201.  A body longer than the limit
makes the spooling copy fail, which the handler reports as HTTP 500
`"Failed to write temp file"`.  A rejected insert is reported as HTTP 500
`"Failed to save asset metadata"`. -/

/-- Outcome of an upload request, as the HTTP layer sees it: success with
status (200 dedup / 201 created), the returned record and the `deduped`
flag, or an error response. -/
inductive UploadResult where
  | ok (status : Nat) (asset : Asset) (deduped : Bool)
  | err (status : Nat) (msg : String)
deriving DecidableEq

/-- The record built for a fresh (non-deduplicated) upload of `body`. -/
def freshAsset (body : List Nat) (assetID : String) (now : Nat) : Asset :=
  { id := assetID
    fileName := assetID ++ (mimeDetect (body.take 512)).2
    size := body.length
    mimeType := (mimeDetect (body.take 512)).1
    hash := md5hex body
    createdAt := now
    updatedAt := now }

/-- Steps 2–3 of ingest: backend `Put` at the hash-derived key followed by
the catalog insert.  Kept separate from the dedup check because the two are
not atomic: under concurrency the catalog seen here may differ from the one
the dedup check read. -/
def commitPhase (s : Store) (body : List Nat) (assetID : String) (now : Nat) :
    UploadResult × Store :=
  let fileHash := md5hex body
  let remoteFilePath := getStoragePath fileHash
  let backend' := putObject s.backend remoteFilePath body
  let asset := freshAsset body assetID now
  match insertAsset s.catalog asset with
  | .ok cat' => (.ok 201 asset false, { s with catalog := cat', backend := backend' })
  | .conflict => (.err 500 "Failed to save asset metadata", { s with backend := backend' })

/-- The full upload handler (sequential semantics: the dedup check and the
commit see the same catalog).  `assetID` is the freshly generated `xid`,
`now` the database clock. -/
def handleRawUpload (s : Store) (body : List Nat) (assetID : String) (now : Nat) :
    UploadResult × Store :=
  if MAX_UPLOAD_SIZE < body.length then
    (.err 500 "Failed to write temp file", s)
  else
    match lookupByHash s.catalog (md5hex body) with
    | some existing => (.ok 200 existing true, s)
    | none => commitPhase s body assetID now

/-! ## Retrieval (CAS generation `downloadAsset`)

Validates the id syntax, resolves the record, derives the backend key from
the stored hash, and opens it through the VFS cache (fetch-on-miss: a miss
reads the backend object and mirrors it).  The response carries the cached
file's size and the record's stored media type. -/

/-- Outcome of a download request: the streamed bytes with the reported
size and media type, or an error response. -/
inductive DownloadResult where
  | ok (bytes : List Nat) (size : Nat) (mimeType : String)
  | err (status : Nat) (msg : String)
deriving DecidableEq

/-- Modelled from the spec: the rclone VFS cache tier (an external library).
`OpenFile` serves from the local mirror when present, otherwise fetches the
full backend object, mirrors it, and serves it; absent on both sides it
fails like a missing file. -/
def vfsOpen (cache : Cache) (backend : Backend) (k : String) :
    Option (List Nat) × Cache :=
  match getObject cache k with
  | some bytes => (some bytes, cache)
  | none =>
      match getObject backend k with
      | none => (none, cache)
      | some bytes => (some bytes, (k, bytes) :: cache)

/-- The download handler. -/
def downloadAsset (s : Store) (assetName : String) : DownloadResult × Store :=
  let assetID := splitDot assetName
  if xidValid assetID = false then (.err 400 "Invalid asset ID format", s)
  else
    match lookupByID s.catalog assetID with
    | none => (.err 404 "Asset not found", s)
    | some asset =>
        let remoteFilePath := getStoragePath asset.hash
        match vfsOpen s.cache s.backend remoteFilePath with
        | (none, cache') =>
            (.err 404 "Asset file not found on storage", { s with cache := cache' })
        | (some bytes, cache') =>
            (.ok bytes bytes.length asset.mimeType, { s with cache := cache' })

/-! ## Deletion (CAS generation `deleteAsset`)

Validates the id, looks the record up (404 when absent), deletes the
catalog row, and only then removes the backend object at the key derived
from the stored hash (removal failures are logged, not surfaced).  The two
mutating steps are kept as separate functions so that the state between
them — the state a crash would leave — is expressible. -/

/-- Outcome of a delete request. -/
inductive DeleteResult where
  | ok
  | err (status : Nat) (msg : String)
deriving DecidableEq

/-- First mutating step of CAS deletion: remove the catalog row. -/
def deleteCASMetaStep (s : Store) (assetID : String) : Store :=
  { s with catalog := deleteByID s.catalog assetID }

/-- Second mutating step of CAS deletion: remove the backend object at the
key derived from the record's content hash. -/
def deleteCASBackendStep (s : Store) (hash : String) : Store :=
  { s with backend := removeObject s.backend (getStoragePath hash) }

/-- The CAS delete handler. -/
def deleteAssetCAS (s : Store) (assetID : String) : DeleteResult × Store :=
  if xidValid assetID = false then (.err 400 "Invalid asset ID format", s)
  else
    match lookupByID s.catalog assetID with
    | none => (.err 404 "Asset not found", s)
    | some asset =>
        (.ok, deleteCASBackendStep (deleteCASMetaStep s assetID) asset.hash)

/-! ## Legacy generation: counter-based placement (`getSmartStoragePath`)

The legacy `main.go` shards by `md5(assetID)` truncated to
`DIR_SHARDING_DEPTH` hex pairs and keeps an in-memory map from directory
path to an `int64` fill counter, mutated under a mutex.  We model the map as
an association list with `Int` values; a key absent from the list reads as
`0`, matching `LoadOrStore(dir, new(atomic.Int64))`. -/

/-- The directory counter map: path to `int64` count. -/
abbrev Counters := List (String × Int)

/-- Read a counter; an absent key counts as `0`. -/
def lookupD (ctr : Counters) (k : String) : Int :=
  match ctr.find? (fun p => p.1 == k) with
  | some p => p.2
  | none => 0

/-- Set a counter: replace the first entry for `k`, or append one. -/
def updateCounter (ctr : Counters) (k : String) (v : Int) : Counters :=
  match ctr with
  | [] => [(k, v)]
  | p :: rest => if p.1 == k then (k, v) :: rest else p :: updateCounter rest k v

/-- `counter.Add(1)`. -/
def incrCounter (ctr : Counters) (k : String) : Counters :=
  updateCounter ctr k (lookupD ctr k + 1)

/-- Byte encoding of an (ASCII) asset id, as fed to `md5.Sum([]byte(id))`;
`xid` identifiers are ASCII so the UTF-8 bytes are the character codes. -/
def strBytes (s : String) : List Nat := s.toList.map Char.toNat

/-- The shard components: `hexHash[2i : 2i+2]` for `i < DIR_SHARDING_DEPTH`
(guarded by `i*2 < len(hexHash)`). -/
def shardParts (hexHash : String) : List String :=
  (List.range DIR_SHARDING_DEPTH).filterMap fun i =>
    if 2 * i < hexHash.length then some ((hexHash.drop (2 * i)).take 2) else none

/-- The base shard directory for an asset id:
`filepath.Join` of the shard components of `hex(md5(assetID))`. -/
def basePathOf (assetID : String) : String :=
  String.intercalate "/" (shardParts (md5hex (strBytes assetID)))

/-- An overflow bucket path: `filepath.Join(basePath, "bucket_<i>")`. -/
def bucketPath (base : String) (i : Nat) : String :=
  base ++ "/bucket_" ++ Nat.repr i

/-- The probe loop `for i := range 100`: first bucket in the index list
whose counter is below capacity. -/
def probeBuckets (ctr : Counters) (base : String) : List Nat → Option String
  | [] => none
  | i :: rest =>
      if lookupD ctr (bucketPath base i) < FILES_PER_DIR then
        some (bucketPath base i)
      else probeBuckets ctr base rest

/-- `getSmartStoragePath`: below capacity the base shard is used and its
counter incremented; at capacity the overflow buckets `bucket_0 … bucket_99`
are probed in order; if all are full the base shard is used anyway. -/
def getSmartStoragePath (ctr : Counters) (assetID : String) : String × Counters :=
  let basePath := basePathOf assetID
  if FILES_PER_DIR ≤ lookupD ctr basePath then
    match probeBuckets ctr basePath (List.range 100) with
    | some p => (p, incrCounter ctr p)
    | none => (basePath, incrCounter ctr basePath)
  else (basePath, incrCounter ctr basePath)

/-- A sequence of `n` placements of ids with the same base shard: the list
of returned paths and the final counter state. -/
def placeList (ctr : Counters) (assetID : String) : Nat → List String × Counters
  | 0 => ([], ctr)
  | n + 1 =>
      let r := getSmartStoragePath ctr assetID
      let rest := placeList r.2 assetID n
      (r.1 :: rest.1, rest.2)

/-- The counter decrement in the legacy `deleteAsset`: only when the
directory has an entry and its value is strictly positive. -/
def decCounter (ctr : Counters) (p : String) : Counters :=
  match ctr.find? (fun q => q.1 == p) with
  | none => ctr
  | some q => if 0 < q.2 then updateCounter ctr p (q.2 - 1) else ctr

/-! ## Legacy generation: data model and deletion

The legacy `Asset` row additionally stores `storage_path` (keys are not
derivable from content there) and its `hash` column has only a plain index,
no uniqueness.  The mounted rclone volume is modelled like the backend:
paths (relative to `STORAGE_PATH`) to bytes. -/

/-- A legacy catalog record. -/
structure LegacyAsset where
  id : String
  storagePath : String
  fileName : String
  size : Nat
  mimeType : String
  hash : String
  createdAt : Nat
  updatedAt : Nat
deriving DecidableEq

/-- The state of the legacy generation: catalog, mounted storage volume,
directory counters. -/
structure LegacyStore where
  catalog : List LegacyAsset
  disk : List (String × List Nat)
  counters : Counters
deriving DecidableEq

/-- The on-disk path of a legacy asset, relative to `STORAGE_PATH`:
`filepath.Join(asset.StoragePath, asset.FileName)`. -/
def legacyFilePathOf (a : LegacyAsset) : String :=
  a.storagePath ++ "/" ++ a.fileName

/-- First mutating step of the legacy `deleteAsset`: `os.Remove` of the
stored file (a missing file is tolerated). -/
def legacyFileRemoveStep (s : LegacyStore) (a : LegacyAsset) : LegacyStore :=
  { s with disk := removeObject s.disk (legacyFilePathOf a) }

/-- Second mutating step: delete the catalog row. -/
def legacyMetaDeleteStep (s : LegacyStore) (assetID : String) : LegacyStore :=
  { s with catalog := s.catalog.filter fun r => r.id != assetID }

/-- Third step: decrement the directory counter of the record's shard. -/
def legacyCounterStep (s : LegacyStore) (dirPath : String) : LegacyStore :=
  { s with counters := decCounter s.counters dirPath }

/-- The legacy delete handler: id check, lookup (404 when absent), then
file removal, *then* catalog-row deletion, then the counter decrement. -/
def deleteAssetLegacy (s : LegacyStore) (assetID : String) :
    DeleteResult × LegacyStore :=
  if xidValid assetID = false then (.err 400 "Invalid asset ID format", s)
  else
    match s.catalog.find? (fun r => r.id == assetID) with
    | none => (.err 404 "Asset not found", s)
    | some asset =>
        let s1 := legacyFileRemoveStep s asset
        let s2 := legacyMetaDeleteStep s1 assetID
        let s3 := legacyCounterStep s2 asset.storagePath
        (.ok, s3)

/-! ## Listing and its query parameters (both generations, identical code)

`listAssets` parses `limit` (default 100, accepted only when
`0 < v && v <= 1000`) and `offset` (default 0, accepted only when `v >= 0`)
with `strconv.Atoi`, counts all rows, and pages with
`ORDER BY created_at DESC LIMIT limit OFFSET offset`. -/

/-- `strconv.Atoi`: optional sign, one or more decimal digits, value within
`int64`; anything else (including the empty string and out-of-range values)
is an error, modelled as `none`. -/
def goAtoi (s : String) : Option Int :=
  let cs := s.toList
  let signDigits : Int × List Char :=
    match cs with
    | '+' :: rest => (1, rest)
    | '-' :: rest => (-1, rest)
    | _ => (1, cs)
  let sign := signDigits.1
  let ds := signDigits.2
  if ds.isEmpty then none
  else if ds.all (·.isDigit) then
    let n : Nat := ds.foldl (fun acc c => acc * 10 + (c.toNat - 48)) 0
    let v : Int := sign * n
    if v < -9223372036854775808 ∨ 9223372036854775808 ≤ v then none else some v
  else none

/-- The `limit` parameter logic of `listAssets`; `none` models an absent
query parameter (`DefaultQuery` then yields `""`). -/
def parseLimit (p : Option String) : Int :=
  let str := p.getD ""
  if str = "" then 100
  else
    match goAtoi str with
    | some v => if 0 < v ∧ v ≤ 1000 then v else 100
    | none => 100

/-- The `offset` parameter logic of `listAssets`. -/
def parseOffset (p : Option String) : Int :=
  let str := p.getD ""
  if str = "" then 0
  else
    match goAtoi str with
    | some v => if 0 ≤ v then v else 0
    | none => 0

/-- Creation-time-descending order on assets (`ORDER BY created_at DESC`). -/
def createdDesc (a b : Asset) : Prop := b.createdAt ≤ a.createdAt

instance : DecidableRel createdDesc := fun a b => Nat.decLe b.createdAt a.createdAt

instance : IsTotal Asset createdDesc := ⟨fun a b => Nat.le_total b.createdAt a.createdAt⟩

instance : IsTrans Asset createdDesc := ⟨fun _ _ _ h1 h2 => Nat.le_trans h2 h1⟩

/-- `getAssetsByPage`: the catalog ordered by creation time descending, with
`OFFSET offset` rows skipped and at most `LIMIT limit` rows returned. -/
def getAssetsByPage (cat : List Asset) (limit offset : Int) : List Asset :=
  ((List.insertionSort createdDesc cat).drop offset.toNat).take limit.toNat

/-- `countAssets`: the row count of the whole table. -/
def countAssets (cat : List Asset) : Int := cat.length

/-- The `listAssets` handler: parsed limit and offset, total count, page. -/
def listAssets (cat : List Asset) (limitParam offsetParam : Option String) :
    Int × Int × Int × List Asset :=
  let limit := parseLimit limitParam
  let offset := parseOffset offsetParam
  (countAssets cat, limit, offset, getAssetsByPage cat limit offset)

/-! ## Concrete scenario used by counterexamples -/

/-- A concrete identifier accepted by `xid.FromString` (20 alphabet
characters; the last character `'0'` satisfies the trailing-bits check). -/
def sampleID : String := "aaaaaaaaaaaaaaaaaaa0"

/-- A second concrete accepted identifier (ends in `'g'`, the other
character the trailing-bits check allows). -/
def sampleID2 : String := "bbbbbbbbbbbbbbbbbbbg"

/-- A concrete legacy record whose file is on disk. -/
def legacyA0 : LegacyAsset :=
  { id := sampleID
    storagePath := "ab"
    fileName := "aaaaaaaaaaaaaaaaaaa0.bin"
    size := 1
    mimeType := "application/octet-stream"
    hash := "0cc175b9c0f1b6a831c399e269772661"
    createdAt := 0
    updatedAt := 0 }

/-- A concrete legacy store holding `legacyA0` and its file. -/
def legacyS0 : LegacyStore :=
  { catalog := [legacyA0]
    disk := [("ab/aaaaaaaaaaaaaaaaaaa0.bin", [97])]
    counters := [("ab", 1)] }

/-- A concrete CAS record whose content hash is that of the one-byte body
`[1]`; it plays the concurrent winner in the ingest race scenario. -/
def conflictAsset : Asset :=
  { id := sampleID2
    fileName := "bbbbbbbbbbbbbbbbbbbg.bin"
    size := 1
    mimeType := "application/octet-stream"
    hash := md5hex [1]
    createdAt := 0
    updatedAt := 0 }

/-- The store as the losing ingest's catalog insert sees it: the winner's
record is already committed (while the loser's dedup check, run earlier,
saw an empty catalog). -/
def conflictStore : Store :=
  { catalog := [conflictAsset], backend := [], cache := [] }

/-- A concrete CAS record with its backend object, for delete scenarios. -/
def casA0 : Asset :=
  { id := sampleID
    fileName := "aaaaaaaaaaaaaaaaaaa0.bin"
    size := 1
    mimeType := "application/octet-stream"
    hash := md5hex [97]
    createdAt := 0
    updatedAt := 0 }

/-- A concrete CAS store holding `casA0` and its backend object. -/
def casS0 : Store :=
  { catalog := [casA0]
    backend := [(getStoragePath (md5hex [97]), [97])]
    cache := [] }

/-- All directory counters are non-negative. -/
def NonNegCtr (ctr : Counters) : Prop := ∀ q ∈ ctr, 0 ≤ q.2

/-! ## Sanity checks of the MD5 embedding against the standard test vectors -/

set_option maxRecDepth 4096 in
example : md5hex [] = "d41d8cd98f00b204e9800998ecf8427e" := by decide

set_option maxRecDepth 4096 in
example : md5hex [97, 98, 99] = "900150983cd24fb0d6963f7d28e17f72" := by decide

set_option maxRecDepth 8192 in
example : md5hex (List.replicate 56 97) = "3b0c8ac703f828b04c6c197006d17218" := by decide

/-! ## Sanity checks of the identifier model against rs/xid v1.6.0 -/

example : xidValid "aaaaaaaaaaaaaaaaaaaa" = false := by decide

example : xidValid sampleID = true := by decide

example : xidValid sampleID2 = true := by decide

/-! ## General helper lemmas -/

/-- A string extended by a nonempty suffix differs from the original. -/
theorem append_ne_of_len (b x : String) (hx : x.length ≠ 0) : b ++ x ≠ b := by
  intro h
  have := congrArg String.length h
  rw [String.length_append] at this
  omega

/-- An overflow bucket path never equals its base path. -/
theorem bucketPath_ne_base (b : String) (i : Nat) : bucketPath b i ≠ b := by
  have h8 : ("/bucket_" : String).length = 8 := rfl
  intro h
  have := congrArg String.length h
  rw [bucketPath, String.length_append, String.length_append, h8] at this
  omega

/-- A valid `xid` contains no dot, so the name-to-id split returns it
unchanged. -/
theorem splitDot_of_xidValid (s : String) (h : xidValid s = true) : splitDot s = s := by
  rw [xidValid, Bool.and_eq_true, Bool.and_eq_true, List.all_eq_true] at h
  rw [splitDot, List.takeWhile_eq_self_iff.mpr]
  · cases s
    rfl
  · intro c hc
    have := h.1.2 c hc
    rw [Bool.or_eq_true, Bool.and_eq_true, Bool.and_eq_true,
      decide_eq_true_eq, decide_eq_true_eq, decide_eq_true_eq, decide_eq_true_eq] at this
    have hne : c ≠ '.' := by
      intro hdot
      subst hdot
      rcases this with ⟨h1, _⟩ | ⟨h1, _⟩
      · exact absurd h1 (by decide)
      · exact absurd h1 (by decide)
    simp [hne]

/-- An object just written is read back exactly. -/
theorem getObject_putObject_self (b : Backend) (k : String) (v : List Nat) :
    getObject (putObject b k v) k = some v := by
  simp [getObject, putObject, List.find?]

/-- Removing a key makes its lookup fail. -/
theorem getObject_removeObject_self (b : Backend) (k : String) :
    getObject (removeObject b k) k = none := by
  rw [getObject, Option.map_eq_none', List.find?_eq_none]
  intro p hp
  have := (List.mem_filter.mp hp).2
  simp only [bne_iff_ne, ne_eq, decide_eq_true_eq] at this
  simp [this]

/-- A deleted id no longer resolves in the catalog. -/
theorem lookupByID_deleteByID_self (cat : List Asset) (id : String) :
    lookupByID (deleteByID cat id) id = none := by
  rw [lookupByID, List.find?_eq_none]
  intro r hr
  have := (List.mem_filter.mp hr).2
  simp only [bne_iff_ne, ne_eq, decide_eq_true_eq] at this
  simp [this]

/-! ## C1 — catalog uniqueness conflicts during ingest -/

/-- C1, counterexample.  The claim states that an ingest whose catalog
insert is rejected by the hash-uniqueness constraint re-reads the
now-existing record and returns it as a successful dedup response, the
conflict never reaching the caller as an error.  In the code
(`handleRawUpload` / `saveAssetMetadata`) any insert failure is returned to
the caller as HTTP 500 "Failed to save asset metadata": concretely, a
dedup check that saw an empty catalog followed by a commit against a
catalog that meanwhile holds a record with the same digest produces that
error response, not a dedup success. -/
theorem C1_conflict_counterexample :
    lookupByHash ([] : List Asset) (md5hex [1]) = none ∧
    (commitPhase conflictStore [1] sampleID 0).1
      = .err 500 "Failed to save asset metadata" := by
  constructor
  · rfl
  · simp [commitPhase, insertAsset, conflictStore, conflictAsset, freshAsset]

/-- C1, amended.  When the commit-time catalog already holds a record with
the digest of the body (the losing side of a concurrent identical upload),
the ingest commit returns the error response HTTP 500
"Failed to save asset metadata" to the caller — no re-read happens and no
dedup response is produced — and the catalog is left unchanged. -/
theorem C1_conflict_surfaced (s : Store) (body : List Nat) (assetID : String)
    (now : Nat) (h : ∃ r ∈ s.catalog, r.hash = md5hex body) :
    (commitPhase s body assetID now).1 = .err 500 "Failed to save asset metadata" ∧
    (commitPhase s body assetID now).2.catalog = s.catalog := by
  obtain ⟨r, hr, hhash⟩ := h
  have hany : s.catalog.any
      (fun q => q.id == (freshAsset body assetID now).id ||
        q.hash == (freshAsset body assetID now).hash) = true := by
    rw [List.any_eq_true]
    exact ⟨r, hr, by simp [freshAsset, hhash]⟩
  simp [commitPhase, insertAsset, hany]

/-- Witness for `C1_conflict_surfaced` at the concrete race scenario. -/
theorem C1_conflict_surfaced_witness :
    (∃ r ∈ conflictStore.catalog, r.hash = md5hex [1]) ∧
    (commitPhase conflictStore [1] sampleID 0).1
      = .err 500 "Failed to save asset metadata" :=
  ⟨⟨conflictAsset, by simp [conflictStore], rfl⟩,
    (C1_conflict_surfaced conflictStore [1] sampleID 0
      ⟨conflictAsset, by simp [conflictStore], rfl⟩).1⟩

/-! ## C5 — oversized payloads -/

/-- C5, counterexample.  The claim states that a payload one byte over the
limit fails with `PayloadTooLarge`.  The code has no such distinct failure:
the `http.MaxBytesReader` limit trips inside the spooling copy, and the
handler answers with the generic HTTP 500 "Failed to write temp file" — the
identical response a local spool I/O failure gets — though it does leave
catalog and backend untouched. -/
theorem C5_oversize_counterexample :
    handleRawUpload { catalog := [], backend := [], cache := [] }
        (List.replicate (MAX_UPLOAD_SIZE + 1) 0) sampleID 0
      = (.err 500 "Failed to write temp file",
         { catalog := [], backend := [], cache := [] }) := by
  rw [handleRawUpload, if_pos]
  rw [List.length_replicate]
  omega

/-- C5, amended.  Ingesting any payload exceeding `MAX_UPLOAD_SIZE`
(including by a single byte) aborts with the generic error response
HTTP 500 "Failed to write temp file" (not a distinct `PayloadTooLarge`
signal) and leaves the store unchanged: no catalog record and no backend
object. -/
theorem C5_oversize_aborts_clean (s : Store) (body : List Nat) (assetID : String)
    (now : Nat) (h : MAX_UPLOAD_SIZE < body.length) :
    handleRawUpload s body assetID now = (.err 500 "Failed to write temp file", s) := by
  rw [handleRawUpload, if_pos h]

/-- Witness for `C5_oversize_aborts_clean` at a payload one byte over the
limit. -/
theorem C5_oversize_aborts_clean_witness :
    MAX_UPLOAD_SIZE < (List.replicate (MAX_UPLOAD_SIZE + 1) 0).length ∧
    handleRawUpload { catalog := [], backend := [], cache := [] }
        (List.replicate (MAX_UPLOAD_SIZE + 1) 0) sampleID 0
      = (.err 500 "Failed to write temp file",
         { catalog := [], backend := [], cache := [] }) :=
  ⟨by rw [List.length_replicate]; omega,
    C5_oversize_aborts_clean { catalog := [], backend := [], cache := [] }
      (List.replicate (MAX_UPLOAD_SIZE + 1) 0) sampleID 0
      (by rw [List.length_replicate]; omega)⟩

/-! ## C2 — deletion ordering -/

/-- C2, counterexample.  The claim states that delete removes the backend
object only after the catalog row is deleted.  The legacy `deleteAsset`
(`main.go`) does the opposite: its first mutating step is `os.Remove` of
the stored file, before `deleteAssetMetadata`.  Concretely, the operation
factors through the file-removal step, and the state after that step — the
state an interruption would leave — has the backend object gone while the
catalog record survives: a catalog record pointing at missing bytes. -/
theorem C2_delete_order_counterexample :
    (deleteAssetLegacy legacyS0 sampleID).2
        = legacyCounterStep
            (legacyMetaDeleteStep (legacyFileRemoveStep legacyS0 legacyA0) legacyA0.id)
            legacyA0.storagePath ∧
    getObject (legacyFileRemoveStep legacyS0 legacyA0).disk (legacyFilePathOf legacyA0)
        = none ∧
    (legacyFileRemoveStep legacyS0 legacyA0).catalog = [legacyA0] := by
  refine ⟨?_, ?_, rfl⟩
  · decide
  · exact getObject_removeObject_self legacyS0.disk (legacyFilePathOf legacyA0)

/-- C2, amended.  In the CAS generation (`deleteAsset` of the rclone
version) the claim holds: an absent id yields 404; for a stored id the
operation is the catalog-row removal followed by the backend-object
removal, and the intermediate state (after the catalog step, before the
backend step) has the row gone and the backend untouched — an interruption
leaves at most an orphaned backend object, never a catalog record pointing
at missing bytes.  The legacy generation (`main.go`) removes the file
before the catalog row, as the counterexample shows. -/
theorem C2_cas_delete_order :
    (∀ (s : Store) (id : String), xidValid id = true →
        lookupByID s.catalog id = none →
        deleteAssetCAS s id = (.err 404 "Asset not found", s)) ∧
    (∀ (s : Store) (id : String) (a : Asset),
        (deleteCASMetaStep s id).backend = s.backend ∧
        lookupByID (deleteCASMetaStep s id).catalog id = none ∧
        (xidValid id = true → lookupByID s.catalog id = some a →
          deleteAssetCAS s id
            = (.ok, deleteCASBackendStep (deleteCASMetaStep s id) a.hash))) := by
  constructor
  · intro s id hxid hnone
    rw [deleteAssetCAS, if_neg (by simp [hxid]), hnone]
  · intro s id a
    refine ⟨rfl, lookupByID_deleteByID_self s.catalog id, ?_⟩
    intro hxid hsome
    rw [deleteAssetCAS, if_neg (by simp [hxid]), hsome]

/-- Witness for `C2_cas_delete_order` at a concrete store: the 404 branch
on the empty store and the two-step deletion of `casA0`. -/
theorem C2_cas_delete_order_witness :
    xidValid sampleID = true ∧
    lookupByID ([] : List Asset) sampleID = none ∧
    deleteAssetCAS { catalog := [], backend := [], cache := [] } sampleID
      = (.err 404 "Asset not found", { catalog := [], backend := [], cache := [] }) ∧
    lookupByID casS0.catalog sampleID = some casA0 ∧
    deleteAssetCAS casS0 sampleID
      = (.ok, deleteCASBackendStep (deleteCASMetaStep casS0 sampleID) casA0.hash) :=
  ⟨by decide, rfl,
    C2_cas_delete_order.1 { catalog := [], backend := [], cache := [] } sampleID
      (by decide) rfl,
    by simp [casS0, casA0, lookupByID, List.find?, sampleID],
    (C2_cas_delete_order.2 casS0 sampleID casA0).2.2 (by decide)
      (by simp [casS0, casA0, lookupByID, List.find?, sampleID])⟩

/-! ## Ingest helper lemmas -/

/-- A fresh upload (digest not in the catalog, id unused) creates the
record, writes the backend object at the hash-derived key, and answers 201
with `deduped = false`. -/
theorem handleRawUpload_fresh (s : Store) (B : List Nat) (id : String) (now : Nat)
    (hlen : B.length ≤ MAX_UPLOAD_SIZE)
    (hdedup : lookupByHash s.catalog (md5hex B) = none)
    (hid : lookupByID s.catalog id = none) :
    handleRawUpload s B id now =
      (.ok 201 (freshAsset B id now) false,
       { s with catalog := s.catalog ++ [freshAsset B id now],
                backend := putObject s.backend (getStoragePath (md5hex B)) B }) := by
  have hany : s.catalog.any
      (fun r => r.id == (freshAsset B id now).id ||
        r.hash == (freshAsset B id now).hash) = false := by
    rw [List.any_eq_false]
    intro r hr
    have h1 := List.find?_eq_none.mp hdedup r hr
    have h2 := List.find?_eq_none.mp hid r hr
    simp only [freshAsset, Bool.or_eq_true, not_or]
    exact ⟨h2, h1⟩
  rw [handleRawUpload, if_neg (by omega), hdedup]
  simp only [commitPhase, insertAsset, hany]
  rfl

/-- A repeated upload (digest already in the catalog) answers 200 with the
existing record, `deduped = true`, and leaves the store untouched. -/
theorem handleRawUpload_dedup (s : Store) (B : List Nat) (id : String) (now : Nat)
    (a : Asset) (hlen : B.length ≤ MAX_UPLOAD_SIZE)
    (hfound : lookupByHash s.catalog (md5hex B) = some a) :
    handleRawUpload s B id now = (.ok 200 a true, s) := by
  rw [handleRawUpload, if_neg (by omega), hfound]

/-- Appending a record whose id is not yet catalogued makes it the lookup
result for that id. -/
theorem lookupByID_append_fresh (cat : List Asset) (a : Asset)
    (h : lookupByID cat a.id = none) :
    lookupByID (cat ++ [a]) a.id = some a := by
  simp only [lookupByID, List.find?_append] at h ⊢
  rw [h]
  simp [List.find?]

/-- Appending a record whose hash is not yet catalogued makes it the lookup
result for that hash. -/
theorem lookupByHash_append_fresh (cat : List Asset) (a : Asset)
    (h : lookupByHash cat a.hash = none) :
    lookupByHash (cat ++ [a]) a.hash = some a := by
  simp only [lookupByHash, List.find?_append] at h ⊢
  rw [h]
  simp [List.find?]

/-- A download request for a well-formed name whose id resolves, served
through the cache tier on a cache miss backed by the backend object. -/
theorem downloadAsset_spec (s : Store) (name : String) (a : Asset) (bytes : List Nat)
    (hxid : xidValid (splitDot name) = true)
    (hfind : lookupByID s.catalog (splitDot name) = some a)
    (hcache : getObject s.cache (getStoragePath a.hash) = none)
    (hback : getObject s.backend (getStoragePath a.hash) = some bytes) :
    (downloadAsset s name).1 = .ok bytes bytes.length a.mimeType := by
  simp only [downloadAsset, hxid, Bool.true_eq_false, if_false, hfind, vfsOpen,
    hcache, hback]

/-! ## C3 — ingest/retrieve round trip -/

/-- C3, confirmed.  For any byte sequence `B` within the size limit and any
store in which `B`'s digest is not yet catalogued, the id is unused, and
the hash-derived key is not in the cache mirror, ingesting `B` succeeds
with a record of size `|B|` and retrieving that record's id streams exactly
the bytes `B`, reporting size `|B|` — the round trip through the placement
function and the (fetch-on-miss) cache tier. -/
theorem C3_ingest_retrieve_round_trip (s : Store) (B : List Nat) (id : String)
    (now : Nat)
    (hlen : B.length ≤ MAX_UPLOAD_SIZE)
    (hxid : xidValid id = true)
    (hdedup : lookupByHash s.catalog (md5hex B) = none)
    (hid : lookupByID s.catalog id = none)
    (hcache : getObject s.cache (getStoragePath (md5hex B)) = none) :
    ∃ a : Asset,
      (handleRawUpload s B id now).1 = .ok 201 a false ∧
      a.id = id ∧ a.size = B.length ∧
      (downloadAsset (handleRawUpload s B id now).2 id).1
        = .ok B B.length a.mimeType := by
  rw [handleRawUpload_fresh s B id now hlen hdedup hid]
  refine ⟨freshAsset B id now, rfl, rfl, rfl, ?_⟩
  have hsp : splitDot id = id := splitDot_of_xidValid id hxid
  apply downloadAsset_spec _ id (freshAsset B id now) B
  · rw [hsp]
    exact hxid
  · rw [hsp]
    exact lookupByID_append_fresh s.catalog (freshAsset B id now) hid
  · exact hcache
  · exact getObject_putObject_self s.backend (getStoragePath (md5hex B)) B

/-- Witness for `C3_ingest_retrieve_round_trip`: the empty store, body
`[7]`, a concrete valid id. -/
theorem C3_ingest_retrieve_round_trip_witness :
    ([7] : List Nat).length ≤ MAX_UPLOAD_SIZE ∧
    xidValid sampleID = true ∧
    (∃ a : Asset,
      (handleRawUpload { catalog := [], backend := [], cache := [] } [7] sampleID 5).1
        = .ok 201 a false ∧
      a.id = sampleID ∧ a.size = ([7] : List Nat).length ∧
      (downloadAsset
          (handleRawUpload { catalog := [], backend := [], cache := [] } [7] sampleID 5).2
          sampleID).1
        = .ok [7] ([7] : List Nat).length a.mimeType) :=
  ⟨by decide, by decide,
    C3_ingest_retrieve_round_trip { catalog := [], backend := [], cache := [] }
      [7] sampleID 5 (by decide) (by decide) rfl rfl rfl⟩

/-! ## C4 — sequential dedup -/

/-- C4, confirmed.  Ingesting `B` twice sequentially: the first call
creates a record `a` whose `hash` is the digest of `B` (the second call
recomputes the same pure digest), and the second call returns exactly that
record `a` with `deduped = true` (HTTP 200, i.e. `is_new_upload = false`)
while leaving the whole store — catalog, backend, cache — unchanged: no
backend write happens on the dedup fast path. -/
theorem C4_sequential_dedup (s : Store) (B : List Nat) (id1 id2 : String)
    (now1 now2 : Nat)
    (hlen : B.length ≤ MAX_UPLOAD_SIZE)
    (hdedup : lookupByHash s.catalog (md5hex B) = none)
    (hid : lookupByID s.catalog id1 = none) :
    ∃ a : Asset,
      (handleRawUpload s B id1 now1).1 = .ok 201 a false ∧
      a.hash = md5hex B ∧
      handleRawUpload (handleRawUpload s B id1 now1).2 B id2 now2
        = (.ok 200 a true, (handleRawUpload s B id1 now1).2) := by
  rw [handleRawUpload_fresh s B id1 now1 hlen hdedup hid]
  refine ⟨freshAsset B id1 now1, rfl, rfl, ?_⟩
  apply handleRawUpload_dedup _ _ _ _ _ hlen
  exact lookupByHash_append_fresh s.catalog (freshAsset B id1 now1) hdedup

/-- Witness for `C4_sequential_dedup`: the empty store, body `[7]`. -/
theorem C4_sequential_dedup_witness :
    ([7] : List Nat).length ≤ MAX_UPLOAD_SIZE ∧
    (∃ a : Asset,
      (handleRawUpload { catalog := [], backend := [], cache := [] } [7] sampleID 5).1
        = .ok 201 a false ∧
      a.hash = md5hex [7] ∧
      handleRawUpload
          (handleRawUpload { catalog := [], backend := [], cache := [] } [7] sampleID 5).2
          [7] sampleID2 9
        = (.ok 200 a true,
           (handleRawUpload { catalog := [], backend := [], cache := [] } [7] sampleID 5).2)) :=
  ⟨by decide,
    C4_sequential_dedup { catalog := [], backend := [], cache := [] }
      [7] sampleID sampleID2 5 9 (by decide) rfl rfl⟩

/-! ## C7 — content-addressed placement -/

/-- Little-endian encodings have the requested width. -/
theorem leBytes_length (k n : Nat) : (leBytes k n).length = k := by
  induction k generalizing n with
  | zero => rfl
  | succ k ih => simp [leBytes, ih]

/-- An MD5 digest is 16 bytes. -/
theorem md5_length (bs : List Nat) : (md5 bs).length = 16 := by
  simp [md5, leBytes_length]

/-- Hex encoding doubles the length. -/
theorem hexEncode_length (bs : List Nat) : (hexEncode bs).length = 2 * bs.length := by
  show (bs.flatMap fun b => [hexDigit (b / 16), hexDigit (b % 16)]).length = 2 * bs.length
  induction bs with
  | nil => rfl
  | cons b rest ih =>
      rw [List.flatMap_cons, List.length_append, ih]
      simp
      omega

/-- A hex MD5 digest is 32 characters. -/
theorem md5hex_length (bs : List Nat) : (md5hex bs).length = 32 := by
  rw [md5hex, hexEncode_length, md5_length]

/-- C7, confirmed.  Content-addressed placement is the pure function
`d ↦ d[0:2] ++ "/" ++ d` (for any digest of length ≥ 2, which every actual
content digest is, having exactly 32 hex characters); in particular the
key of any body's digest is its two-character shard followed by the full
digest.  The function reads no state: it is a plain function of the digest
alone. -/
theorem C7_content_addressed_key :
    (∀ d : String, 2 ≤ d.length → getStoragePath d = d.take 2 ++ "/" ++ d) ∧
    (∀ bs : List Nat, (md5hex bs).length = 32) ∧
    (∀ bs : List Nat,
      getStoragePath (md5hex bs) = (md5hex bs).take 2 ++ "/" ++ md5hex bs) := by
  refine ⟨fun d hd => ?_, md5hex_length, fun bs => ?_⟩
  · rw [getStoragePath, if_neg (by omega)]
  · rw [getStoragePath, if_neg (by rw [md5hex_length]; omega)]

/-- Witness for `C7_content_addressed_key` at a concrete digest-shaped
string and a concrete body. -/
theorem C7_content_addressed_key_witness :
    (2 ≤ ("ab" : String).length ∧ getStoragePath "ab" = ("ab" : String).take 2 ++ "/" ++ "ab") ∧
    (md5hex []).length = 32 ∧
    getStoragePath (md5hex []) = (md5hex []).take 2 ++ "/" ++ md5hex [] :=
  ⟨⟨by decide, C7_content_addressed_key.1 "ab" (by decide)⟩,
    C7_content_addressed_key.2.1 [],
    C7_content_addressed_key.2.2 []⟩

/-! ## C10 — list parameter fallback -/

/-- C10, confirmed.  A missing limit parameter, an unparsable one, and a
parsed value that is non-positive or greater than 1000 all fall back to
the default limit 100; a missing, unparsable, or negative offset falls
back to 0; consequently every page query runs with `1 ≤ limit ≤ 1000` and
`offset ≥ 0`. -/
theorem C10_list_param_fallback :
    (parseLimit none = 100 ∧ parseOffset none = 0) ∧
    (∀ s : String, goAtoi s = none →
      parseLimit (some s) = 100 ∧ parseOffset (some s) = 0) ∧
    (∀ (s : String) (v : Int), goAtoi s = some v → (v ≤ 0 ∨ 1000 < v) →
      parseLimit (some s) = 100) ∧
    (∀ (s : String) (v : Int), goAtoi s = some v → v < 0 →
      parseOffset (some s) = 0) ∧
    (∀ p q : Option String,
      1 ≤ parseLimit p ∧ parseLimit p ≤ 1000 ∧ 0 ≤ parseOffset q) := by
  refine ⟨⟨rfl, rfl⟩, ?_, ?_, ?_, ?_⟩
  · intro s hs
    by_cases he : s = ""
    · subst he
      exact ⟨rfl, rfl⟩
    · constructor
      · simp only [parseLimit, Option.getD, if_neg he, hs]
      · simp only [parseOffset, Option.getD, if_neg he, hs]
  · intro s v hs hv
    have he : s ≠ "" := by
      intro h
      subst h
      rw [show goAtoi "" = none from rfl] at hs
      cases hs
    simp only [parseLimit, Option.getD, if_neg he, hs]
    rw [if_neg (by omega)]
  · intro s v hs hv
    have he : s ≠ "" := by
      intro h
      subst h
      rw [show goAtoi "" = none from rfl] at hs
      cases hs
    simp only [parseOffset, Option.getD, if_neg he, hs]
    rw [if_neg (by omega)]
  · intro p q
    refine ⟨?_, ?_, ?_⟩
    · rcases p with _ | s
      · decide
      · by_cases he : s = ""
        · subst he
          decide
        · simp only [parseLimit, Option.getD, if_neg he]
          rcases hgo : goAtoi s with _ | v
          · decide
          · split
            · omega
            · decide
    · rcases p with _ | s
      · decide
      · by_cases he : s = ""
        · subst he
          decide
        · simp only [parseLimit, Option.getD, if_neg he]
          rcases hgo : goAtoi s with _ | v
          · decide
          · split
            · omega
            · decide
    · rcases q with _ | s
      · decide
      · by_cases he : s = ""
        · subst he
          decide
        · simp only [parseOffset, Option.getD, if_neg he]
          rcases hgo : goAtoi s with _ | v
          · decide
          · split
            · omega
            · decide

/-- Witness for `C10_list_param_fallback` at concrete parameters: an
unparsable limit, an over-limit value, a negative offset. -/
theorem C10_list_param_fallback_witness :
    goAtoi "abc" = none ∧ parseLimit (some "abc") = 100 ∧
    goAtoi "2000" = some 2000 ∧ parseLimit (some "2000") = 100 ∧
    goAtoi "-5" = some (-5) ∧ parseOffset (some "-5") = 0 ∧
    1 ≤ parseLimit (some "7") ∧ parseLimit (some "7") ≤ 1000 ∧
    0 ≤ parseOffset none :=
  ⟨by decide, (C10_list_param_fallback.2.1 "abc" (by decide)).1,
    by decide, C10_list_param_fallback.2.2.1 "2000" 2000 (by decide) (by decide),
    by decide, C10_list_param_fallback.2.2.2.1 "-5" (-5) (by decide) (by decide),
    (C10_list_param_fallback.2.2.2.2 (some "7") none).1,
    (C10_list_param_fallback.2.2.2.2 (some "7") none).2.1,
    (C10_list_param_fallback.2.2.2.2 (some "7") none).2.2⟩

/-! ## C8 — listing order and total count -/

/-- C8, confirmed.  With exactly three records created at `t1 < t2 < t3`,
the page `limit = 2, offset = 0` is `[a3, a2]` — creation time descending —
and the total count is 3.  In general every page is sorted by creation time
descending and the reported total is the size of the whole catalog,
independent of limit and offset. -/
theorem C8_listing_order :
    (∀ a1 a2 a3 : Asset, a1.createdAt < a2.createdAt → a2.createdAt < a3.createdAt →
      getAssetsByPage [a1, a2, a3] 2 0 = [a3, a2] ∧ countAssets [a1, a2, a3] = 3) ∧
    (∀ (cat : List Asset) (limit offset : Int),
      List.Sorted createdDesc (getAssetsByPage cat limit offset) ∧
      countAssets cat = cat.length) := by
  constructor
  · intro a1 a2 a3 h12 h23
    have n23 : ¬ createdDesc a2 a3 := by
      rw [createdDesc]
      omega
    have n13 : ¬ createdDesc a1 a3 := by
      rw [createdDesc]
      omega
    have n12 : ¬ createdDesc a1 a2 := by
      rw [createdDesc]
      omega
    refine ⟨?_, rfl⟩
    rw [getAssetsByPage]
    simp only [List.insertionSort, List.orderedInsert]
    rw [if_neg n23]
    simp only [List.orderedInsert]
    rw [if_neg n13, if_neg n12]
    rfl
  · intro cat limit offset
    refine ⟨?_, rfl⟩
    have hs : List.Sorted createdDesc (List.insertionSort createdDesc cat) :=
      List.sorted_insertionSort createdDesc cat
    exact List.Pairwise.sublist
      ((List.take_sublist _ _).trans (List.drop_sublist _ _)) hs

/-- Witness for `C8_listing_order` at three concrete records created at
times 1 < 2 < 3. -/
theorem C8_listing_order_witness :
    (casA0.createdAt < { casA0 with createdAt := 2 }.createdAt ∧
      { casA0 with createdAt := 2 }.createdAt < { casA0 with createdAt := 3 }.createdAt) ∧
    getAssetsByPage [{ casA0 with createdAt := 1 },
        { casA0 with createdAt := 2 }, { casA0 with createdAt := 3 }] 2 0
      = [{ casA0 with createdAt := 3 }, { casA0 with createdAt := 2 }] ∧
    countAssets [{ casA0 with createdAt := 1 },
        { casA0 with createdAt := 2 }, { casA0 with createdAt := 3 }] = 3 :=
  ⟨⟨by decide, by decide⟩,
    (C8_listing_order.1 { casA0 with createdAt := 1 } { casA0 with createdAt := 2 }
      { casA0 with createdAt := 3 } (by decide) (by decide)).1,
    (C8_listing_order.1 { casA0 with createdAt := 1 } { casA0 with createdAt := 2 }
      { casA0 with createdAt := 3 } (by decide) (by decide)).2⟩

/-! ## Counter-map helper lemmas (legacy generation) -/

/-- An absent key reads as zero. -/
theorem lookupD_nil (k : String) : lookupD [] k = 0 := rfl

/-- A single matching entry is read back. -/
theorem lookupD_single (k : String) (v : Int) : lookupD [(k, v)] k = v := by
  simp [lookupD, List.find?]

/-- Reading past a non-matching head entry. -/
theorem lookupD_cons_neg {p : String × Int} {rest : Counters} {k : String}
    (h : (p.1 == k) = false) : lookupD (p :: rest) k = lookupD rest k := by
  simp only [lookupD, List.find?, h]

/-- Reading a matching head entry. -/
theorem lookupD_cons_pos {p : String × Int} {rest : Counters} {k : String}
    (h : (p.1 == k) = true) : lookupD (p :: rest) k = p.2 := by
  simp only [lookupD, List.find?, h]

/-- Updating the empty map creates the entry. -/
theorem updateCounter_nil (k : String) (v : Int) : updateCounter [] k v = [(k, v)] := rfl

/-- Updating a singleton at its own key replaces the value. -/
theorem updateCounter_single (k : String) (v w : Int) :
    updateCounter [(k, v)] k w = [(k, w)] := by
  rw [updateCounter, if_pos (beq_self_eq_true k)]

/-- Updating skips a non-matching head entry. -/
theorem updateCounter_cons_neg {p : String × Int} {rest : Counters} {k : String}
    (v : Int) (h : (p.1 == k) = false) :
    updateCounter (p :: rest) k v = p :: updateCounter rest k v := by
  rw [updateCounter, if_neg (by simp [h])]

/-- Incrementing in the empty map creates a one-entry. -/
theorem incrCounter_nil (k : String) : incrCounter [] k = [(k, 1)] := by
  rw [incrCounter, lookupD_nil, updateCounter_nil]
  norm_num

/-- Incrementing a singleton at its own key. -/
theorem incrCounter_single (k : String) (v : Int) :
    incrCounter [(k, v)] k = [(k, v + 1)] := by
  rw [incrCounter, lookupD_single, updateCounter_single]

/-- Reading past a non-matching head entry, with the entry's key explicit
(avoids unifying a projection against a large key term). -/
theorem lookupD_cons_pair_neg (b k : String) (v : Int) (rest : Counters)
    (h : (b == k) = false) : lookupD ((b, v) :: rest) k = lookupD rest k :=
  lookupD_cons_neg h

/-- Incrementing a fresh key past a single non-matching entry. -/
theorem incrCounter_pair_neg (b q : String) (v : Int) (h : (b == q) = false) :
    incrCounter [(b, v)] q = [(b, v), (q, 1)] := by
  rw [incrCounter, lookupD_cons_neg h, lookupD_nil, updateCounter_cons_neg _ h,
    updateCounter_nil]
  norm_num

/-- Every entry of an updated counter map is the written pair or an
original entry. -/
theorem mem_updateCounter {ctr : Counters} {k : String} {v : Int}
    {q : String × Int} (h : q ∈ updateCounter ctr k v) : q = (k, v) ∨ q ∈ ctr := by
  induction ctr with
  | nil => simpa [updateCounter] using h
  | cons p rest ih =>
      rw [updateCounter] at h
      by_cases hp : (p.1 == k) = true
      · rw [if_pos hp] at h
        rcases List.mem_cons.mp h with h1 | h1
        · exact .inl h1
        · exact .inr (List.mem_cons_of_mem p h1)
      · rw [if_neg hp] at h
        rcases List.mem_cons.mp h with h1 | h1
        · exact .inr (h1 ▸ List.mem_cons_self p rest)
        · rcases ih h1 with h2 | h2
          · exact .inl h2
          · exact .inr (List.mem_cons_of_mem p h2)

/-- Writing a non-negative value preserves non-negativity. -/
theorem NonNegCtr_updateCounter {ctr : Counters} {k : String} {v : Int}
    (h : NonNegCtr ctr) (hv : 0 ≤ v) : NonNegCtr (updateCounter ctr k v) := by
  intro q hq
  rcases mem_updateCounter hq with h1 | h1
  · rw [h1]
    exact hv
  · exact h q h1

/-- In a non-negative counter map every read is non-negative. -/
theorem lookupD_nonneg {ctr : Counters} (h : NonNegCtr ctr) (k : String) :
    0 ≤ lookupD ctr k := by
  rcases hf : ctr.find? (fun p => p.1 == k) with _ | p
  · simp only [lookupD, hf]
    exact le_refl (0 : Int)
  · simp only [lookupD, hf]
    exact h p (List.mem_of_find?_eq_some hf)

/-- An updated key reads back the written value. -/
theorem lookupD_updateCounter_self (ctr : Counters) (k : String) (v : Int) :
    lookupD (updateCounter ctr k v) k = v := by
  induction ctr with
  | nil =>
      rw [updateCounter]
      exact lookupD_single k v
  | cons p rest ih =>
      rw [updateCounter]
      by_cases hp : (p.1 == k) = true
      · rw [if_pos hp, lookupD_cons_pos (by simp)]
      · rw [if_neg hp, lookupD_cons_neg (Bool.not_eq_true _ ▸ hp)]
        exact ih

/-- Updating one key leaves every other key's read unchanged. -/
theorem lookupD_updateCounter_other (ctr : Counters) (k : String) (v : Int)
    (q : String) (h : q ≠ k) :
    lookupD (updateCounter ctr k v) q = lookupD ctr q := by
  have hkq : (k == q) = false := beq_eq_false_iff_ne.mpr (Ne.symm h)
  induction ctr with
  | nil =>
      rw [updateCounter, lookupD_cons_neg hkq]
  | cons p rest ih =>
      rw [updateCounter]
      by_cases hp : (p.1 == k) = true
      · rw [if_pos hp, lookupD_cons_neg hkq, lookupD_cons_neg]
        rw [eq_of_beq hp]
        exact hkq
      · rw [if_neg hp]
        by_cases hq : (p.1 == q) = true
        · rw [lookupD_cons_pos hq, lookupD_cons_pos hq]
        · rw [lookupD_cons_neg (Bool.not_eq_true _ ▸ hq),
            lookupD_cons_neg (Bool.not_eq_true _ ▸ hq)]
          exact ih

/-- An increment raises exactly its key's read by one. -/
theorem lookupD_incrCounter_self (ctr : Counters) (k : String) :
    lookupD (incrCounter ctr k) k = lookupD ctr k + 1 :=
  lookupD_updateCounter_self ctr k (lookupD ctr k + 1)

/-- An increment leaves other keys' reads unchanged. -/
theorem lookupD_incrCounter_other (ctr : Counters) (k q : String) (h : q ≠ k) :
    lookupD (incrCounter ctr k) q = lookupD ctr q :=
  lookupD_updateCounter_other ctr k (lookupD ctr k + 1) q h

/-- Increments preserve non-negativity. -/
theorem NonNegCtr_incrCounter {ctr : Counters} (h : NonNegCtr ctr) (k : String) :
    NonNegCtr (incrCounter ctr k) :=
  NonNegCtr_updateCounter h (by have := lookupD_nonneg h k; omega)

/-- No key's read decreases under an increment. -/
theorem lookupD_le_incrCounter (ctr : Counters) (k q : String) :
    lookupD ctr q ≤ lookupD (incrCounter ctr k) q := by
  by_cases h : q = k
  · subst h
    rw [lookupD_incrCounter_self]
    omega
  · rw [lookupD_incrCounter_other ctr k q h]

/-- Every placement outcome updates the counters by a single increment. -/
theorem getSmartStoragePath_snd (ctr : Counters) (id : String) :
    ∃ p, (getSmartStoragePath ctr id).2 = incrCounter ctr p := by
  simp only [getSmartStoragePath]
  split
  · split
    · exact ⟨_, rfl⟩
    · exact ⟨_, rfl⟩
  · exact ⟨_, rfl⟩

/-! ## C9 — counters stay non-negative -/

/-- C9, confirmed.  Placement mutates the counter map by exactly one
increment (so it preserves non-negativity and never lowers any read), and
the deletion path decrements a directory's counter only when its current
value is strictly positive — so every counter read stays non-negative under
both operations. -/
theorem C9_counter_nonneg :
    (∀ (ctr : Counters) (id : String), NonNegCtr ctr →
        NonNegCtr (getSmartStoragePath ctr id).2 ∧
        ∀ k, lookupD ctr k ≤ lookupD (getSmartStoragePath ctr id).2 k) ∧
    (∀ (ctr : Counters) (p : String), NonNegCtr ctr →
        NonNegCtr (decCounter ctr p)) := by
  constructor
  · intro ctr id h
    obtain ⟨p, hp⟩ := getSmartStoragePath_snd ctr id
    rw [hp]
    exact ⟨NonNegCtr_incrCounter h p, fun k => lookupD_le_incrCounter ctr p k⟩
  · intro ctr p h
    rcases hf : ctr.find? (fun q => q.1 == p) with _ | q
    · simpa [decCounter, hf] using h
    · have hq := h q (List.mem_of_find?_eq_some hf)
      simp only [decCounter, hf]
      split
      · apply NonNegCtr_updateCounter h
        rename_i h2
        omega
      · exact h

/-- Witness for `C9_counter_nonneg` at a concrete one-entry counter map. -/
theorem C9_counter_nonneg_witness :
    NonNegCtr (getSmartStoragePath [("ab", (2 : Int))] "x").2 ∧
    NonNegCtr (decCounter [("ab", (2 : Int))] "ab") :=
  ⟨(C9_counter_nonneg.1 [("ab", (2 : Int))] "x"
      (by intro q hq; rw [List.mem_singleton] at hq; subst hq; decide)).1,
    C9_counter_nonneg.2 [("ab", (2 : Int))] "ab"
      (by intro q hq; rw [List.mem_singleton] at hq; subst hq; decide)⟩

/-! ## Placement helper lemmas (legacy generation) -/

/-- Below capacity, placement returns the base shard and increments it. -/
theorem getSmartStoragePath_base (ctr : Counters) (id : String)
    (h : lookupD ctr (basePathOf id) < FILES_PER_DIR) :
    getSmartStoragePath ctr id = (basePathOf id, incrCounter ctr (basePathOf id)) := by
  simp only [getSmartStoragePath]
  rw [if_neg (by omega)]

/-- The probe loop fails over a list of fully occupied buckets. -/
theorem probeBuckets_none (ctr : Counters) (base : String) (l : List Nat)
    (h : ∀ j ∈ l, FILES_PER_DIR ≤ lookupD ctr (bucketPath base j)) :
    probeBuckets ctr base l = none := by
  induction l with
  | nil => rfl
  | cons i rest ih =>
      rw [probeBuckets,
        if_neg (by have := h i (List.mem_cons_self i rest); omega)]
      exact ih fun j hj => h j (List.mem_cons_of_mem i hj)

/-- The probe loop returns the first bucket with spare capacity. -/
theorem probeBuckets_found (ctr : Counters) (base : String) (i : Nat)
    (post : List Nat) :
    ∀ pre : List Nat,
      (∀ j ∈ pre, FILES_PER_DIR ≤ lookupD ctr (bucketPath base j)) →
      lookupD ctr (bucketPath base i) < FILES_PER_DIR →
      probeBuckets ctr base (pre ++ i :: post) = some (bucketPath base i) := by
  intro pre
  induction pre with
  | nil =>
      intro _ hi
      rw [List.nil_append, probeBuckets, if_pos hi]
  | cons j rest ih =>
      intro hpre hi
      rw [List.cons_append, probeBuckets,
        if_neg (by have := hpre j (List.mem_cons_self j rest); omega)]
      exact ih (fun x hx => hpre x (List.mem_cons_of_mem j hx)) hi

/-- Splitting `range n` around an element `i < n`. -/
theorem range_split (i : Nat) :
    ∀ n, i < n → ∃ post, List.range n = List.range i ++ i :: post := by
  intro n
  induction n with
  | zero => omega
  | succ m ih =>
      intro h
      by_cases hm : i < m
      · obtain ⟨post, hp⟩ := ih hm
        refine ⟨post ++ [m], ?_⟩
        rw [List.range_succ, hp]
        simp
      · have : i = m := by omega
        subst this
        exact ⟨[], by rw [List.range_succ]⟩

/-- At base capacity, placement returns the lowest-indexed bucket with
spare capacity. -/
theorem getSmartStoragePath_bucket (ctr : Counters) (id : String) (i : Nat)
    (hi : i < 100)
    (hbase : FILES_PER_DIR ≤ lookupD ctr (basePathOf id))
    (hfull : ∀ j, j < i → FILES_PER_DIR ≤ lookupD ctr (bucketPath (basePathOf id) j))
    (hok : lookupD ctr (bucketPath (basePathOf id) i) < FILES_PER_DIR) :
    getSmartStoragePath ctr id
      = (bucketPath (basePathOf id) i,
         incrCounter ctr (bucketPath (basePathOf id) i)) := by
  obtain ⟨post, hsplit⟩ := range_split i 100 hi
  have hprobe : probeBuckets ctr (basePathOf id) (List.range 100)
      = some (bucketPath (basePathOf id) i) := by
    rw [hsplit]
    exact probeBuckets_found ctr (basePathOf id) i post (List.range i)
      (fun j hj => hfull j (List.mem_range.mp hj)) hok
  simp only [getSmartStoragePath]
  rw [if_pos hbase, hprobe]

/-- With base and all hundred buckets at capacity, placement falls back to
the base shard and increments it regardless. -/
theorem getSmartStoragePath_allfull (ctr : Counters) (id : String)
    (hbase : FILES_PER_DIR ≤ lookupD ctr (basePathOf id))
    (hfull : ∀ j, j < 100 → FILES_PER_DIR ≤ lookupD ctr (bucketPath (basePathOf id) j)) :
    getSmartStoragePath ctr id = (basePathOf id, incrCounter ctr (basePathOf id)) := by
  have hprobe : probeBuckets ctr (basePathOf id) (List.range 100) = none :=
    probeBuckets_none _ _ _ fun j hj => hfull j (List.mem_range.mp hj)
  simp only [getSmartStoragePath]
  rw [if_pos hbase, hprobe]

/-- A placement run over a single-entry counter map below capacity stays in
the base shard, counting up. -/
theorem placeList_run (id : String) :
    ∀ (n k : Nat), k + n ≤ 5000 →
      placeList [(basePathOf id, (k : Int))] id n
        = (List.replicate n (basePathOf id),
           [(basePathOf id, ((k + n : Nat) : Int))]) := by
  intro n
  induction n with
  | zero =>
      intro k _
      simp [placeList]
  | succ m ih =>
      intro k hle
      have hstep : getSmartStoragePath [(basePathOf id, (k : Int))] id
          = (basePathOf id, [(basePathOf id, ((k + 1 : Nat) : Int))]) := by
        rw [getSmartStoragePath_base _ _
          (by rw [lookupD_single]; rw [FILES_PER_DIR]; exact_mod_cast (by omega : k < 5000))]
        rw [incrCounter_single]
        rw [show ((k : Int) + 1) = ((k + 1 : Nat) : Int) from by push_cast; ring]
      simp only [placeList, hstep]
      rw [ih (k + 1) (by omega)]
      rw [show k + 1 + m = k + (m + 1) from by omega]
      simp [List.replicate_succ]

/-- Decomposing a placement run. -/
theorem placeList_add (ctr : Counters) (id : String) (m n : Nat) :
    placeList ctr id (m + n)
      = ((placeList ctr id m).1 ++ (placeList (placeList ctr id m).2 id n).1,
         (placeList (placeList ctr id m).2 id n).2) := by
  induction m generalizing ctr with
  | zero => simp [placeList]
  | succ p ih =>
      rw [show p + 1 + n = (p + n) + 1 from by omega]
      simp only [placeList]
      rw [ih (getSmartStoragePath ctr id).2]
      simp

/-- One placement step. -/
theorem placeList_succ (ctr : Counters) (id : String) (n : Nat) :
    placeList ctr id (n + 1)
      = ((getSmartStoragePath ctr id).1
            :: (placeList (getSmartStoragePath ctr id).2 id n).1,
         (placeList (getSmartStoragePath ctr id).2 id n).2) := rfl

/-- Zero placements change nothing. -/
theorem placeList_zero (ctr : Counters) (id : String) :
    placeList ctr id 0 = ([], ctr) := rfl

/-! ## C6 — counter-based placement with overflow buckets -/

/-- C6, confirmed.  (1) While the base shard's counter is below
`FILES_PER_DIR`, placement returns the base path and increments its
counter; (2) from a fresh counter map, the first 5000 placements under one
base shard all return the base path and the 5001-th lands in `bucket_0`;
(3) at base capacity the lowest-indexed bucket with spare capacity is
always chosen; (4) with the base and all 100 buckets at capacity, placement
returns the base path anyway with an incremented counter. -/
theorem C6_counter_placement :
    (∀ (ctr : Counters) (id : String),
        lookupD ctr (basePathOf id) < FILES_PER_DIR →
        getSmartStoragePath ctr id
          = (basePathOf id, incrCounter ctr (basePathOf id))) ∧
    (∀ id : String,
        placeList [] id 5001
          = (List.replicate 5000 (basePathOf id) ++ [bucketPath (basePathOf id) 0],
             [(basePathOf id, 5000), (bucketPath (basePathOf id) 0, 1)])) ∧
    (∀ (ctr : Counters) (id : String) (i : Nat), i < 100 →
        FILES_PER_DIR ≤ lookupD ctr (basePathOf id) →
        (∀ j, j < i → FILES_PER_DIR ≤ lookupD ctr (bucketPath (basePathOf id) j)) →
        lookupD ctr (bucketPath (basePathOf id) i) < FILES_PER_DIR →
        getSmartStoragePath ctr id
          = (bucketPath (basePathOf id) i,
             incrCounter ctr (bucketPath (basePathOf id) i))) ∧
    (∀ (ctr : Counters) (id : String),
        FILES_PER_DIR ≤ lookupD ctr (basePathOf id) →
        (∀ j, j < 100 → FILES_PER_DIR ≤ lookupD ctr (bucketPath (basePathOf id) j)) →
        getSmartStoragePath ctr id
          = (basePathOf id, incrCounter ctr (basePathOf id))) := by
  refine ⟨getSmartStoragePath_base, ?_, getSmartStoragePath_bucket,
    getSmartStoragePath_allfull⟩
  intro id
  have hne : ((basePathOf id) == bucketPath (basePathOf id) 0) = false :=
    beq_eq_false_iff_ne.mpr (Ne.symm (bucketPath_ne_base (basePathOf id) 0))
  have hstep0 : getSmartStoragePath [] id
      = (basePathOf id, [(basePathOf id, (1 : Int))]) := by
    rw [getSmartStoragePath_base [] id (by rw [lookupD_nil]; decide)]
    rw [incrCounter_nil]
  have hlast : getSmartStoragePath [(basePathOf id, (5000 : Int))] id
      = (bucketPath (basePathOf id) 0,
         [(basePathOf id, (5000 : Int)), (bucketPath (basePathOf id) 0, (1 : Int))]) := by
    rw [getSmartStoragePath_bucket [(basePathOf id, (5000 : Int))] id 0 (by omega)
      (by rw [lookupD_single]; decide)
      (fun j hj => absurd hj (Nat.not_lt_zero j))
      (by rw [lookupD_cons_pair_neg (basePathOf id) (bucketPath (basePathOf id) 0)
          (5000 : Int) [] hne, lookupD_nil]; decide)]
    rw [incrCounter_pair_neg _ _ _ hne]
  have hrun : placeList [(basePathOf id, (1 : Int))] id 4999
      = (List.replicate 4999 (basePathOf id), [(basePathOf id, (5000 : Int))]) := by
    have h := placeList_run id 4999 1 (by omega)
    norm_num at h
    exact h
  have e1 : placeList [] id 5001
      = ((basePathOf id) :: (placeList [(basePathOf id, (1 : Int))] id 5000).1,
         (placeList [(basePathOf id, (1 : Int))] id 5000).2) := by
    rw [show (5001 : Nat) = 5000 + 1 from by norm_num, placeList_succ, hstep0]
  have e3 : placeList [(basePathOf id, (5000 : Int))] id 1
      = ([bucketPath (basePathOf id) 0],
         [(basePathOf id, (5000 : Int)), (bucketPath (basePathOf id) 0, (1 : Int))]) := by
    rw [show (1 : Nat) = 0 + 1 from by norm_num, placeList_succ, hlast, placeList_zero]
  have e2 : placeList [(basePathOf id, (1 : Int))] id 5000
      = (List.replicate 4999 (basePathOf id) ++ [bucketPath (basePathOf id) 0],
         [(basePathOf id, (5000 : Int)), (bucketPath (basePathOf id) 0, (1 : Int))]) := by
    rw [show (5000 : Nat) = 4999 + 1 from by norm_num, placeList_add, hrun]
    simp only [e3]
  have hrep : List.replicate 5000 (basePathOf id)
      = basePathOf id :: List.replicate 4999 (basePathOf id) := by
    rw [show (5000 : Nat) = 4999 + 1 from by norm_num, List.replicate_succ]
  rw [e1, e2, hrep, List.cons_append]

/-- In a counter map all of whose entries hold `v`, any key that has an
entry reads `v`. -/
theorem lookupD_const (l : Counters) (v : Int) (k : String)
    (hall : ∀ p ∈ l, p.2 = v) (hsome : ∃ p ∈ l, (p.1 == k) = true) :
    lookupD l k = v := by
  rcases hf : l.find? (fun p => p.1 == k) with _ | p
  · rw [List.find?_eq_none] at hf
    obtain ⟨p, hp, hb⟩ := hsome
    exact absurd hb (by simpa using hf p hp)
  · simp only [lookupD, hf]
    exact hall p (List.mem_of_find?_eq_some hf)

/-- Witness for `C6_counter_placement` at the concrete id `"x"`: a fresh
map (base below capacity), a map with the base at capacity and all buckets
empty, and a map with the base and all 100 buckets at capacity. -/
theorem C6_counter_placement_witness :
    lookupD [] (basePathOf "x") < FILES_PER_DIR ∧
    getSmartStoragePath [] "x" = (basePathOf "x", incrCounter [] (basePathOf "x")) ∧
    getSmartStoragePath [(basePathOf "x", (5000 : Int))] "x"
      = (bucketPath (basePathOf "x") 0,
         incrCounter [(basePathOf "x", (5000 : Int))] (bucketPath (basePathOf "x") 0)) ∧
    getSmartStoragePath
        ((List.range 100).map (fun j => (bucketPath (basePathOf "x") j, (5000 : Int)))
          ++ [(basePathOf "x", (5000 : Int))]) "x"
      = (basePathOf "x",
         incrCounter
           ((List.range 100).map (fun j => (bucketPath (basePathOf "x") j, (5000 : Int)))
             ++ [(basePathOf "x", (5000 : Int))]) (basePathOf "x")) := by
  have h0 : lookupD [] (basePathOf "x") < FILES_PER_DIR := by
    rw [lookupD_nil]
    decide
  have hne : ((basePathOf "x") == bucketPath (basePathOf "x") 0) = false :=
    beq_eq_false_iff_ne.mpr (Ne.symm (bucketPath_ne_base (basePathOf "x") 0))
  have hbase1 : FILES_PER_DIR ≤ lookupD [(basePathOf "x", (5000 : Int))] (basePathOf "x") := by
    rw [lookupD_single]
    decide
  have hok1 : lookupD [(basePathOf "x", (5000 : Int))] (bucketPath (basePathOf "x") 0)
      < FILES_PER_DIR := by
    rw [lookupD_cons_pair_neg (basePathOf "x") (bucketPath (basePathOf "x") 0)
      (5000 : Int) [] hne, lookupD_nil]
    decide
  have hall : ∀ p ∈ (List.range 100).map
        (fun j => (bucketPath (basePathOf "x") j, (5000 : Int)))
      ++ [(basePathOf "x", (5000 : Int))], p.2 = (5000 : Int) := by
    intro p hp
    rcases List.mem_append.mp hp with h | h
    · obtain ⟨j, _, rfl⟩ := List.mem_map.mp h
      rfl
    · rw [List.mem_singleton] at h
      subst h
      rfl
  have hbase4 : FILES_PER_DIR ≤ lookupD
      ((List.range 100).map (fun j => (bucketPath (basePathOf "x") j, (5000 : Int)))
        ++ [(basePathOf "x", (5000 : Int))]) (basePathOf "x") := by
    rw [lookupD_const _ (5000 : Int) _ hall
      ⟨(basePathOf "x", (5000 : Int)),
        List.mem_append_right _ (List.mem_singleton.mpr rfl), beq_self_eq_true _⟩]
    decide
  have hfull4 : ∀ j, j < 100 → FILES_PER_DIR ≤ lookupD
      ((List.range 100).map (fun i => (bucketPath (basePathOf "x") i, (5000 : Int)))
        ++ [(basePathOf "x", (5000 : Int))]) (bucketPath (basePathOf "x") j) := by
    intro j hj
    rw [lookupD_const _ (5000 : Int) _ hall
      ⟨(bucketPath (basePathOf "x") j, (5000 : Int)),
        List.mem_append_left _ (List.mem_map.mpr ⟨j, List.mem_range.mpr hj, rfl⟩),
        beq_self_eq_true _⟩]
    decide
  exact ⟨h0, C6_counter_placement.1 [] "x" h0,
    C6_counter_placement.2.2.1 [(basePathOf "x", (5000 : Int))] "x" 0 (by omega)
      hbase1 (fun j hj => absurd hj (Nat.not_lt_zero j)) hok1,
    C6_counter_placement.2.2.2 _ "x" hbase4 hfull4⟩

end RcloneAssets
